import Mathlib

/-!
# Verification of the DartsAtlas daily-results extraction engine

Shallow embedding of the core of `dartsatlas_daily_results.py`: the tier and
points classifier, the name normalizer and plausibility filter, the bracket
parser (including a faithful executable model of the Python `re` constructs
the parser uses), the tournament date resolver, and the season crawler with
its canonical-URL deduplication.

Python strings are modeled as Lean `String` / `List Char`; Python `int` values
that are known non-negative (entrant counts, match scores) as `Nat` and years
as `Int`; fallible operations (dictionary lookup, `int()` conversion,
`datetime.date` construction, a parse that may raise) as `Option`.
-/

set_option maxHeartbeats 4000000

namespace AdcDaily

/-- A row of the fixed points table: points for Winner, Runner-up,
Semi-finalist, Quarter-finalist. -/
structure PointsRow where
  w : Nat
  ru : Nat
  sf : Nat
  qf : Nat
deriving DecidableEq, Repr

/-- The `POINTS` table of the source (a dict keyed by tier name; lookup of an
unknown key is modeled by `none`). -/
def POINTS (tier : String) : Option PointsRow :=
  if tier = "Bronze" then some ⟨8, 4, 2, 0⟩
  else if tier = "Silver" then some ⟨16, 8, 4, 2⟩
  else if tier = "Gold" then some ⟨32, 16, 8, 4⟩
  else none

/-- The function determine_tier of the source: entrants ≤ 8 → Bronze,
≤ 16 → Silver, else Gold. -/
def determine_tier (entrants : Nat) : String :=
  if entrants ≤ 8 then "Bronze"
  else if entrants ≤ 16 then "Silver"
  else "Gold"

/-- The function estimate_entrants_from_bracket of the source: 8 if any
quarter-final names were recovered, else 4 if any semi-final names, else 2. -/
def estimate_entrants_from_bracket (semis quarters : List String) : Nat :=
  if ¬ quarters.isEmpty then 8
  else if ¬ semis.isEmpty then 4
  else 2

/-- The entrant-count resolution step of `collect_for_region`: the roster
count from `count_entrants` is used when positive, otherwise the bracket
estimate is substituted. -/
def resolved_entrants (roster : Nat) (semis quarters : List String) : Nat :=
  if roster = 0 then estimate_entrants_from_bracket semis quarters else roster

/-! ## An executable model of the Python regex constructs used by the source

The source relies on a fixed, small set of `re` patterns.  The abstract
grammar below covers exactly the constructs those patterns use (anchors, word
boundaries, character classes, case-insensitive literals, alternation, greedy
and lazy repetition, option, numbered capture groups and backreferences), and
the matcher reproduces the Python engine's leftmost, priority-ordered
backtracking search.  Word characters and case folding follow the ASCII rules
(the documents involved are ASCII; Python's are Unicode-aware).  The matcher
takes a fuel argument for termination; fuel bounds only recursion depth, which
for these patterns is linear in the subject length, and the wrappers supply a
generous bound. -/

/-- Python whitespace class for the ASCII range: space, tab, newline,
carriage return, vertical tab, form feed. -/
def isPySpace (c : Char) : Bool :=
  c = ' ' || c = '\t' || c = '\n' || c = '\r' || c.toNat = 11 || c.toNat = 12

/-- Word character for word boundaries: ASCII alphanumeric or underscore. -/
def isWordChar (c : Char) : Bool :=
  c.isAlphanum || c = '_'

/-- Regular-expression abstract grammar (only the constructs the source's
patterns use). -/
inductive RE where
  | bos
  | eos
  | wordb
  | cls (p : Char → Bool)
  | lit (cs : List Char) (ci : Bool)
  | seq (a b : RE)
  | alt (a b : RE)
  | starG (a : RE)
  | starL (a : RE)
  | opt (a : RE)
  | grp (i : Nat) (a : RE)
  | bref (i : Nat) (ci : Bool)

/-- Capture record: entries (group index, start, stop), most recent first. -/
abbrev Caps := List (Nat × Nat × Nat)

/-- Latest capture of a group. -/
def capLookup (caps : Caps) (i : Nat) : Option (Nat × Nat) :=
  match caps with
  | [] => none
  | (j, b, e) :: rest => if j = i then some (b, e) else capLookup rest i

/-- Characters of the subject between two positions. -/
def sliceChars (s : Array Char) (b e : Nat) : List Char :=
  (s.toList.drop b).take (e - b)

/-- Is the position a word boundary of the subject? -/
def atBoundary (s : Array Char) (pos : Nat) : Bool :=
  let prevW := match pos with
    | 0 => false
    | p + 1 => match s[p]? with
      | some c => isWordChar c
      | none => false
  let curW := match s[pos]? with
    | some c => isWordChar c
    | none => false
  prevW != curW

/-- Does the literal occur at the position (optionally case-insensitively,
ASCII folding as Python's IGNORECASE does on these inputs)? -/
def litMatch (s : Array Char) (pos : Nat) (cs : List Char) (ci : Bool) : Bool :=
  match cs with
  | [] => true
  | c :: rest =>
    match s[pos]? with
    | some d =>
      (if ci then d.toLower = c.toLower else d = c) && litMatch s (pos + 1) rest ci
    | none => false

/-- Backtracking matcher in continuation style.  Alternatives, greedy and lazy
repetition explore branches in the Python engine's priority order; the first
branch whose continuation succeeds wins. -/
def reRun (s : Array Char) :
    Nat → RE → Nat → Caps → (Nat → Caps → Option (Nat × Caps)) →
      Option (Nat × Caps)
  | 0, _, _, _, _ => none
  | Nat.succ fuel, re, pos, caps, k =>
    match re with
    | .bos => if pos = 0 then k pos caps else none
    | .eos => if pos = s.size then k pos caps else none
    | .wordb => if atBoundary s pos then k pos caps else none
    | .cls p =>
      match s[pos]? with
      | some c => if p c then k (pos + 1) caps else none
      | none => none
    | .lit cs ci => if litMatch s pos cs ci then k (pos + cs.length) caps else none
    | .seq a b => reRun s fuel a pos caps (fun p c => reRun s fuel b p c k)
    | .alt a b => reRun s fuel a pos caps k <|> reRun s fuel b pos caps k
    | .starG a =>
      reRun s fuel a pos caps (fun p c =>
        if pos < p then reRun s fuel (.starG a) p c k else k p c) <|> k pos caps
    | .starL a =>
      k pos caps <|>
        reRun s fuel a pos caps (fun p c =>
          if pos < p then reRun s fuel (.starL a) p c k else none)
    | .opt a => reRun s fuel a pos caps k <|> k pos caps
    | .grp i a => reRun s fuel a pos caps (fun p c => k p ((i, pos, p) :: c))
    | .bref i ci =>
      match capLookup caps i with
      | none => none
      | some (b, e) =>
        let cs := sliceChars s b e
        if litMatch s pos cs ci then k (pos + cs.length) caps else none

/-- Fuel that bounds the matcher's recursion depth for the source's patterns. -/
def fuelFor (s : Array Char) : Nat :=
  4 * s.size + 200

/-- Match the pattern at exactly the given position. -/
def matchAt (s : Array Char) (re : RE) (pos : Nat) : Option (Nat × Caps) :=
  reRun s (fuelFor s) re pos [] (fun p c => some (p, c))

/-- Leftmost search scanning start positions upward (the helper recurses on
the number of start positions still to try). -/
def searchAux (s : Array Char) (re : RE) : Nat → Nat → Option (Nat × Nat × Caps)
  | 0, _ => none
  | Nat.succ n, pos =>
    match matchAt s re pos with
    | some (e, caps) => some (pos, e, caps)
    | none => searchAux s re n (pos + 1)

/-- Python re.search from a position: leftmost match as (start, stop, caps). -/
def reSearch (s : Array Char) (re : RE) (pos : Nat) : Option (Nat × Nat × Caps) :=
  searchAux s re (s.size + 1 - pos) pos

/-- Python re.findall: capture records of successive non-overlapping leftmost
matches, each next scan resuming at the previous match's end. -/
def findallAux (s : Array Char) (re : RE) : Nat → Nat → List Caps
  | 0, _ => []
  | Nat.succ n, pos =>
    match reSearch s re pos with
    | none => []
    | some (b, e, caps) =>
      caps :: findallAux s re n (if b < e then e else b + 1)

/-- All matches of the pattern over the subject. -/
def findall (s : Array Char) (re : RE) : List Caps :=
  findallAux s re (s.size + 2) 0

/-- Python re.sub with a constant replacement: rewrite successive
non-overlapping leftmost matches. -/
def subAux (s : Array Char) (re : RE) (repl : List Char) : Nat → Nat → List Char
  | 0, pos => s.toList.drop pos
  | Nat.succ n, pos =>
    match reSearch s re pos with
    | none => s.toList.drop pos
    | some (b, e, _) =>
      ((s.toList.drop pos).take (b - pos)) ++ repl ++
        (if b < e then subAux s re repl n e
         else match s[e]? with
           | some c => c :: subAux s re repl n (e + 1)
           | none => [])

/-- Substitute a constant replacement for every match of the pattern. -/
def reSub (re : RE) (repl : List Char) (s : List Char) : List Char :=
  let a := s.toArray
  subAux a re repl (a.size + 2) 0

/-- The text captured by a group of a completed match. -/
def groupStr (s : Array Char) (caps : Caps) (i : Nat) : Option (List Char) :=
  (capLookup caps i).map (fun be => sliceChars s be.1 be.2)

/-- The dot of the source's patterns: any character but a newline. -/
def anyc : RE := .cls (fun c => c ≠ '\n')

/-- One-or-more, greedy. -/
def plusG (a : RE) : RE := .seq a (.starG a)

/-- One-or-more, lazy. -/
def plusL (a : RE) : RE := .seq a (.starL a)

/-- Whitespace class as a pattern atom. -/
def wsc : RE := .cls isPySpace

/-- Digit class as a pattern atom. -/
def digitc : RE := .cls Char.isDigit

/-- Right-nested alternation preserving the written order of alternatives. -/
def altList : List RE → RE
  | [] => .cls (fun _ => false)
  | [a] => a
  | a :: rest => .alt a (altList rest)

/-! ## Name normalizer and plausibility filter -/

/-- Python str.strip over a character class, both ends. -/
def stripBoth (p : Char → Bool) (l : List Char) : List Char :=
  ((l.dropWhile p).reverse.dropWhile p).reverse

/-- Helper for whitespace collapsing; the flag records whether the current
position continues a whitespace run already rewritten to one space. -/
def collapseWSAux : List Char → Bool → List Char
  | [], _ => []
  | c :: rest, inRun =>
    if isPySpace c then
      if inRun then collapseWSAux rest true
      else ' ' :: collapseWSAux rest true
    else c :: collapseWSAux rest false

/-- Python re.sub of one-or-more whitespace by a single space. -/
def collapseWS (l : List Char) : List Char :=
  collapseWSAux l false

/-- The round-label alternation of clean_person_name, alternatives in the
source's order: Final, Semi-Final or Semi Final, Quarter-Final or Quarter
Final, Quarterfinal, Semifinal, all case-insensitive. -/
def labelAlt : RE :=
  altList [
    .lit "Final".data true,
    .seq (.lit "Semi".data true)
      (.seq (.cls (fun c => c = '-' || c = ' ')) (.lit "Final".data true)),
    .seq (.lit "Quarter".data true)
      (.seq (.cls (fun c => c = '-' || c = ' ')) (.lit "Final".data true)),
    .lit "Quarterfinal".data true,
    .lit "Semifinal".data true]

/-- First pattern of clean_person_name: a round label preceded by start or
whitespace and followed by whitespace or end. -/
def labelRe : RE :=
  .seq (.alt .bos wsc) (.seq (.grp 1 labelAlt) (.alt wsc .eos))

/-- Second pattern of clean_person_name: the token Avg between word
boundaries, case-insensitive. -/
def avgRe : RE :=
  .seq .wordb (.seq (.lit "Avg".data true) .wordb)

/-- Third pattern of clean_person_name: a trailing whitespace-separated
number, optionally with a decimal part, anchored at the end. -/
def trailNumRe : RE :=
  .seq (plusG wsc)
    (.seq (plusG digitc)
      (.seq (.opt (.seq (.lit ".".data false) (plusG digitc))) .eos))

/-- Fourth pattern of clean_person_name: the whole string is one fragment
repeated twice (case-insensitive backreference), capturing the fragment. -/
def dupRe : RE :=
  .seq .bos
    (.seq (.starG wsc)
      (.seq (.grp 1 (plusL anyc))
        (.seq (plusG wsc) (.seq (.bref 1 true) (.seq (.starG wsc) .eos)))))

/-- The function clean_person_name of the source: drop round labels, drop the
Avg token, drop one trailing number, collapse a self-duplicated whole string
to one copy, then collapse whitespace and strip spaces and hyphens. -/
def clean_person_name (s : String) : String :=
  let x1 := reSub labelRe [' '] s.data
  let x2 := reSub avgRe [] x1
  let x3 := reSub trailNumRe [] x2
  let x4 := match matchAt x3.toArray dupRe 0 with
    | some (_, caps) => (groupStr x3.toArray caps 1).getD x3
    | none => x3
  ⟨stripBoth (fun c => c = ' ' || c = '-') (collapseWS x4)⟩

/-- Parenthetical-aside pattern of is_name_candidate: an opening parenthesis,
any characters other than a closing parenthesis, a closing parenthesis. -/
def parenRe : RE :=
  .seq (.lit "(".data false)
    (.seq (.starG (.cls (fun c => c ≠ ')'))) (.lit ")".data false))

/-- The cleaned form is_name_candidate tests: whitespace collapsed, ends
stripped, parenthetical asides removed. -/
def nameCore (text : String) : List Char :=
  reSub parenRe [] (stripBoth isPySpace (collapseWS text.data))

/-- The stop-token set of is_name_candidate, exactly as in the source
(including both legs and leg). -/
def badToks : List (List Char) :=
  ["group", "played", "pld", "w", "l", "legs", "leg", "pts", "points", "gd",
   "avg", "average", "bye", "walkover", "tbc", "reserve"].map String.data

/-- Does the needle occur as a contiguous substring at the start? -/
def startsWithL : List Char → List Char → Bool
  | _, [] => true
  | [], _ :: _ => false
  | c :: cs, p :: ps => c = p && startsWithL cs ps

/-- Python substring membership: does the needle occur anywhere? -/
def hasSubstr (pat : List Char) : List Char → Bool
  | [] => pat.isEmpty
  | c :: t => startsWithL (c :: t) pat || hasSubstr pat t

/-- The stop-token test of is_name_candidate: some stop token occurs as a
substring (Python membership on the lowercased text). -/
def anyBadTok (l : List Char) : Bool :=
  badToks.any (fun tok => hasSubstr tok l)

/-- The score-or-punctuation class of is_name_candidate's full-match reject
pattern. -/
def isScorePunct (c : Char) : Bool :=
  c.isDigit || c = ':' || c = '-' || c = '–' || c = '.' || c = '/'

/-- The function is_name_candidate of the source: reject empty input, clean
the text, reject bad lengths, texts without a letter or an interior space,
pure number or punctuation runs, and texts whose lowercase form contains a
stop token as a substring. -/
def is_name_candidate (text : String) : Bool :=
  if text.data.isEmpty then false
  else if (nameCore text).length < 3 || 40 < (nameCore text).length then false
  else if ¬ (nameCore text).any Char.isAlpha || ¬ (nameCore text).contains ' '
    then false
  else if ¬ (nameCore text).isEmpty && (nameCore text).all isScorePunct
    then false
  else if anyBadTok ((nameCore text).map Char.toLower) then false
  else true

/-- Modelled from the spec: the fifteen stop words the claim lists (the
source's set also has leg). -/
def specStopWords : List String :=
  ["group", "played", "pld", "w", "l", "legs", "pts", "points", "gd",
   "avg", "average", "bye", "walkover", "tbc", "reserve"]

/-- Helper splitting a character list into its maximal word-character runs;
the accumulator holds the current run reversed. -/
def wordsOfAux : List Char → List Char → List (List Char)
  | [], acc => if acc.isEmpty then [] else [acc.reverse]
  | c :: rest, acc =>
    if isWordChar c then wordsOfAux rest (c :: acc)
    else if acc.isEmpty then wordsOfAux rest []
    else acc.reverse :: wordsOfAux rest []

/-- The whole words of a character list: its maximal word-character runs. -/
def wordsOf (l : List Char) : List (List Char) :=
  wordsOfAux l []

/-- Modelled from the spec: does the cleaned, lowercased text contain one of
the claim's stop words as a whole word (maximal word-character run)? -/
def containsStopWholeWord (text : String) : Bool :=
  (wordsOf ((nameCore text).map Char.toLower)).any
    (fun w => specStopWords.any (fun sw => sw.data = w))

/-- Modelled from the spec: the claim's acceptance conditions, identical to
is_name_candidate except that stop words only count as whole words. -/
def spec_name_plausible (text : String) : Bool :=
  if text.data.isEmpty then false
  else if (nameCore text).length < 3 || 40 < (nameCore text).length then false
  else if ¬ (nameCore text).any Char.isAlpha || ¬ (nameCore text).contains ' '
    then false
  else if ¬ (nameCore text).isEmpty && (nameCore text).all isScorePunct
    then false
  else if containsStopWholeWord text then false
  else true

/-! ## Bracket parser -/

/-- First pairing pattern of parse_bracket: lazy name, the avg token (the
source's two-way case alternation collapses to one case-insensitive literal),
two integer scores, lazy name, the avg token again. -/
def pairPat1 : RE :=
  .seq (.grp 1 (plusL anyc))
    (.seq (plusG wsc)
      (.seq (.lit "avg".data true)
        (.seq (plusG wsc)
          (.seq (.grp 2 (plusG digitc))
            (.seq (plusG wsc)
              (.seq (.grp 3 (plusG digitc))
                (.seq (plusG wsc)
                  (.seq (.grp 4 (plusL anyc))
                    (.seq (plusG wsc) (.lit "avg".data true))))))))))

/-- Second pairing pattern of parse_bracket: lazy name, score, hyphen or en
dash, score, lazy name ending at a word boundary. -/
def pairPat2 : RE :=
  .seq (.grp 1 (plusL anyc))
    (.seq (plusG wsc)
      (.seq (.grp 2 (plusG digitc))
        (.seq (.starG wsc)
          (.seq (.cls (fun c => c = '-' || c = '–'))
            (.seq (.starG wsc)
              (.seq (.grp 3 (plusG digitc))
                (.seq (plusG wsc)
                  (.seq (.grp 4 (plusL anyc)) .wordb))))))))

/-- The pattern list of parse_bracket, tried in order per section. -/
def pair_pats : List RE := [pairPat1, pairPat2]

/-- Heading search pattern of section_block: the escaped term then a word
boundary, case-insensitive. -/
def termRe (t : String) : RE :=
  .seq (.lit t.data true) .wordb

/-- The helper section_block of parse_bracket: the suffix of the normalized
text starting at the first occurrence of the first heading synonym that
matches; the whole text when none matches. -/
def section_block (terms : List String) (norm : List Char) : List Char :=
  match terms with
  | [] => norm
  | t :: rest =>
    match reSearch norm.toArray (termRe t) 0 with
    | some (b, _, _) => norm.drop b
    | none => section_block rest norm

/-- Python int() on the digit strings the score groups capture; none models
ValueError on a non-digit string. -/
def parseScore (l : List Char) : Option Nat :=
  if l.isEmpty || ¬ l.all Char.isDigit then none
  else some (l.foldl (fun n c => 10 * n + (c.toNat - 48)) 0)

/-- One iteration of the per-pair loop of extract_pairs: read the four
capture groups, clean both names, parse both scores; none models the
continue that drops the pair when a score fails to parse. -/
def pair_post (a : Array Char) (caps : Caps) :
    Option (String × String × Nat × Nat) :=
  match groupStr a caps 1, groupStr a caps 2,
      groupStr a caps 3, groupStr a caps 4 with
  | some l, some s1, some s2, some r =>
    match parseScore s1, parseScore s2 with
    | some x, some y => some (clean_person_name ⟨l⟩, clean_person_name ⟨r⟩, x, y)
    | _, _ => none
  | _, _, _, _ => none

/-- The pattern loop of extract_pairs: first pattern with any matches whose
processed list is nonempty wins; matches beyond the expected count are
discarded before processing. -/
def extract_pairs_loop (a : Array Char) (expected : Nat) :
    List RE → List (String × String × Nat × Nat)
  | [] => []
  | pat :: rest =>
    let pairs := findall a pat
    if pairs.isEmpty then extract_pairs_loop a expected rest
    else
      let out := (pairs.take expected).filterMap (pair_post a)
      if out.isEmpty then extract_pairs_loop a expected rest
      else out

/-- The helper extract_pairs of parse_bracket. -/
def extract_pairs (terms : List String) (expected : Nat) (norm : List Char) :
    List (String × String × Nat × Nat) :=
  extract_pairs_loop (section_block terms norm).toArray expected pair_pats

/-- Winner and runner-up selection from the Final pair (parse_bracket lines
510 to 512): the left side is winner exactly when its score is strictly
greater, otherwise the right side is. -/
def final_outcome : String × String × Nat × Nat → String × String
  | (l, r, s1, s2) => (if s1 > s2 then l else r, if s1 > s2 then r else l)

/-- The name parse_bracket retains from one Semi-Final or Quarter-Final pair
(the comprehensions at lines 514 to 519): the left name when its score is
strictly lower, otherwise the right name. -/
def retained_of_pair : String × String × Nat × Nat → String
  | (a, b, x, y) => if x < y then a else b

/-- Modelled from the spec: the advancing player of a bracket match is the
side with the strictly higher score. -/
def spec_advancing : String × String × Nat × Nat → String
  | (a, b, x, y) => if x > y then a else b

/-- The text-level core of parse_bracket, taking the flattened document text;
none models the ValueError raised when no Final pair is recovered. -/
def parse_bracket_text (text : String) :
    Option (String × String × List String × List String) :=
  let norm := collapseWS text.data
  let final_pairs := extract_pairs ["Final"] 1 norm
  let semi_pairs := extract_pairs ["Semi-Final", "Semifinal", "Semi final"] 2 norm
  let quarter_pairs :=
    extract_pairs ["Quarter-Final", "Quarterfinal", "Quarter final"] 4 norm
  match final_pairs with
  | [] => none
  | p :: _ =>
    some ((final_outcome p).1, (final_outcome p).2,
      semi_pairs.map retained_of_pair, quarter_pairs.map retained_of_pair)

/-! ## Tournament date resolver

The two regex-driven extraction layers of parse_tournament_date (the calendar
widget's span texts, and the four text patterns) read the document; the date
is then built from the extracted strings.  The widget span texts are the
document model's input, and the four text-pattern matchers are universally
quantified parameters, so the theorems hold for every possible extraction;
everything downstream of extraction (month tables, Python int conversion,
datetime.date validation, the strategy order and the continue-on-failure
control flow) is translated from the source. -/

/-- Length in days of a month, Gregorian rules, as datetime.date uses. -/
def daysInMonth (y m : Int) : Int :=
  if m = 2 then (if y % 4 = 0 && (y % 100 ≠ 0 || y % 400 = 0) then 29 else 28)
  else if m = 4 || m = 6 || m = 9 || m = 11 then 30
  else 31

/-- The calendar validation datetime.date performs: year 1 to 9999, month 1
to 12, day within the month. -/
def isValidDate (y m d : Int) : Bool :=
  1 ≤ y && y ≤ 9999 && 1 ≤ m && m ≤ 12 && 1 ≤ d && d ≤ daysInMonth y m

/-- Model of datetime.date construction; none models the ValueError raised on
an invalid date. -/
def mkDate (y m d : Int) : Option (Int × Int × Int) :=
  if isValidDate y m d then some (y, m, d) else none

/-- Model of Python int() on a string: surrounding whitespace stripped, an
optional sign, then decimal digits; none models ValueError. -/
def pyInt (s : String) : Option Int :=
  match stripBoth isPySpace s.data with
  | '+' :: rest => (parseScore rest).map Int.ofNat
  | '-' :: rest => (parseScore rest).map (fun n => -(Int.ofNat n))
  | t => (parseScore t).map Int.ofNat

/-- The month table of the calendar-widget strategy (three-letter and full
names, exact case). -/
def month_map_widget (s : String) : Option Int :=
  ([("Jan", 1), ("January", 1), ("Feb", 2), ("February", 2),
    ("Mar", 3), ("March", 3), ("Apr", 4), ("April", 4), ("May", 5),
    ("Jun", 6), ("June", 6), ("Jul", 7), ("July", 7),
    ("Aug", 8), ("August", 8), ("Sep", 9), ("Sept", 9), ("September", 9),
    ("Oct", 10), ("October", 10), ("Nov", 11), ("November", 11),
    ("Dec", 12), ("December", 12)] : List (String × Int)).lookup s

/-- The helper try_build of the widget strategy: integer year, month-name
lookup on the stripped token, integer day, then date construction; any
failure yields none. -/
def try_build (y_str m_str d_str : String) : Option (Int × Int × Int) :=
  match pyInt y_str, month_map_widget ⟨stripBoth isPySpace m_str.data⟩,
      pyInt d_str with
  | some y, some m, some d => mkDate y m d
  | _, _, _ => none

/-- The widget strategy: with at least three span texts, try the layouts
(year, month, day), then (day, month, year), then (month, day, year). -/
def widget_date (parts : List String) : Option (Int × Int × Int) :=
  match parts with
  | p0 :: p1 :: p2 :: _ =>
    match try_build p0 p1 p2 with
    | some c => some c
    | none =>
      match try_build p2 p1 p0 with
      | some c => some c
      | none => try_build p2 p0 p1
  | _ => none

/-- The short-month table of the text-pattern strategy. -/
def month_map_text (s : String) : Option Int :=
  ([("Jan", 1), ("Feb", 2), ("Mar", 3), ("Apr", 4), ("May", 5), ("Jun", 6),
    ("Jul", 7), ("Aug", 8), ("Sep", 9), ("Oct", 10), ("Nov", 11),
    ("Dec", 12)] : List (String × Int)).lookup s

/-- The long-to-short month rewrite of the text-pattern strategy, identity on
other strings. -/
def long_to_short (s : String) : String :=
  (([("January", "Jan"), ("February", "Feb"), ("March", "Mar"),
    ("April", "Apr"), ("May", "May"), ("June", "Jun"), ("July", "Jul"),
    ("August", "Aug"), ("September", "Sep"), ("October", "Oct"),
    ("November", "Nov"), ("December", "Dec")] :
      List (String × String)).lookup s).getD s

/-- Model of Python str.title restricted to single tokens: a letter starting
a letter run is uppercased, later letters of the run are lowercased. -/
def pyTitleAux : List Char → Bool → List Char
  | [], _ => []
  | c :: rest, prevAlpha =>
    (if c.isAlpha then (if prevAlpha then c.toLower else c.toUpper) else c) ::
      pyTitleAux rest c.isAlpha

/-- Python str.title on a string. -/
def pyTitle (s : String) : String :=
  ⟨pyTitleAux s.data false⟩

/-- Date construction from the day, month-name and year groups of the three
name-month text patterns; none models both a failed month lookup (continue)
and an exception (continue). -/
def named_groups_date : Option (String × String × String) →
    Option (Int × Int × Int)
  | none => none
  | some (d, mon, y) =>
    match month_map_text (long_to_short (pyTitle mon)) with
    | none => none
    | some mo =>
      match pyInt y, pyInt d with
      | some yv, some dv => mkDate yv mo dv
      | _, _ => none

/-- Date construction from the numeric year, month and day groups of the
ISO-like text pattern. -/
def iso_groups_date : Option (String × String × String) →
    Option (Int × Int × Int)
  | none => none
  | some (y, m, d) =>
    match pyInt y, pyInt m, pyInt d with
    | some yv, some mv, some dv => mkDate yv mv dv
    | _, _, _ => none

/-- The text-pattern strategy of parse_tournament_date over the collapsed
page text; the four matchers stand for the four regex searches, in the
source's order, each returning its named groups when it matches. -/
def text_date (m1 m2 m3 miso : String → Option (String × String × String))
    (text : String) : Option (Int × Int × Int) :=
  match named_groups_date (m1 ⟨collapseWS text.data⟩) with
  | some c => some c
  | none =>
    match named_groups_date (m2 ⟨collapseWS text.data⟩) with
    | some c => some c
    | none =>
      match named_groups_date (m3 ⟨collapseWS text.data⟩) with
      | some c => some c
      | none => iso_groups_date (miso ⟨collapseWS text.data⟩)

/-- A tournament document as the date resolver sees it: the nonempty span
texts of a calendar-event-icon element when one exists, and the flattened
page text. -/
structure DateDoc where
  widgetParts : Option (List String)
  text : String

/-- The function parse_tournament_date of the source: the widget strategy
first (skipped when no widget element exists or fewer than three span texts
were found or no layout builds a date), then the ordered text patterns; none
models the final return None. -/
def parse_tournament_date
    (m1 m2 m3 miso : String → Option (String × String × String))
    (doc : DateDoc) : Option (Int × Int × Int) :=
  match (match doc.widgetParts with
         | some parts => widget_date parts
         | none => none) with
  | some c => some c
  | none => text_date m1 m2 m3 miso doc.text

/-! ## Season crawler

A fetched season results page is modeled by what the four link-extraction
passes of extract_event_links_for_season read from it: the anchor tags (text
and href attribute) for the two tree-based passes, and the capture lists of
the two raw-markup regex sweeps.  URL canonicalization, the per-pass guards,
the first-seen deduplication, the one-fetch-failure and no-new-URLs stop
conditions and the ten-page ceiling are translated from the source. -/

/-- Does one string start with another? -/
def strStarts (s pre : String) : Bool :=
  startsWithL s.data pre.data

/-- The suffix after the first occurrence of a separator, as Python
str.split with one split returns it; none when the separator is absent. -/
def afterFirst (sep : List Char) : List Char → Option (List Char)
  | [] => if sep.isEmpty then some [] else none
  | c :: t =>
    if startsWithL (c :: t) sep then some ((c :: t).drop sep.length)
    else afterFirst sep t

/-- The search pattern of canonical_tournament_url: an absolute
dartsatlas.com tournament URL, the identifier running up to a slash, query
or fragment. -/
def canonRe : RE :=
  .seq (.lit "http".data false)
    (.seq (.opt (.lit "s".data false))
      (.seq (.lit "://www.dartsatlas.com/tournaments/".data false)
        (plusG (.cls (fun c => ¬ (c = '/' || c = '?' || c = '#'))))))

/-- The function canonical_tournament_url of the source: the leftmost
absolute tournament URL when the pattern matches, else a root rebuilt from
the path after the first /tournaments/ segment, else the URL unchanged. -/
def canonical_tournament_url (url : String) : String :=
  match reSearch url.data.toArray canonRe 0 with
  | some (b, e, _) => ⟨sliceChars url.data.toArray b e⟩
  | none =>
    if hasSubstr "/tournaments/".data url.data then
      match afterFirst "/tournaments/".data url.data with
      | some rest =>
        "https://www.dartsatlas.com/tournaments/" ++
          ⟨rest.takeWhile (fun c => c ≠ '/')⟩
      | none => url
    else url

/-- Model of urllib.parse.urljoin against the fixed base
https://www.dartsatlas.com, restricted to the reference shapes the crawler
meets: absolute URLs, scheme-relative, root-relative and bare-relative
references. -/
def urljoin_da (href : String) : String :=
  if href = "" then "https://www.dartsatlas.com"
  else if strStarts href "//" then "https:" ++ href
  else if hasSubstr "://".data href.data then href
  else if strStarts href "/" then "https://www.dartsatlas.com" ++ href
  else "https://www.dartsatlas.com/" ++ href

/-- Python str.strip on an href attribute value. -/
def hrefStrip (h : String) : String :=
  ⟨stripBoth isPySpace h.data⟩

/-- A fetched season results page as the four extraction passes read it:
anchors as (visible text, optional href attribute), and the capture lists of
the two raw-markup regex sweeps (tournament paths of absolute URLs, and href
attribute values containing a tournament path). -/
structure SeasonPage where
  anchors : List (String × Option String)
  rawAbs : List String
  rawHref : List String

/-- First pass: anchors labeled Full Details with a truthy href; join,
canonicalize, keep when the result contains the tournaments segment. -/
def pass1cands (p : SeasonPage) : List String :=
  p.anchors.filterMap (fun a =>
    match a.2 with
    | some href =>
      if a.1 = "Full Details »" ∧ href ≠ "" then
        if hasSubstr "/tournaments/".data
            (canonical_tournament_url (urljoin_da (hrefStrip href))).data then
          some (canonical_tournament_url (urljoin_da (hrefStrip href)))
        else none
      else none
    | none => none)

/-- Second pass: any anchor whose href contains the tournaments segment;
join, canonicalize, keep under the same guard. -/
def pass2cands (p : SeasonPage) : List String :=
  p.anchors.filterMap (fun a =>
    if hasSubstr "/tournaments/".data (hrefStrip (a.2.getD "")).data then
      if hasSubstr "/tournaments/".data
          (canonical_tournament_url (urljoin_da (hrefStrip (a.2.getD "")))).data
        then some (canonical_tournament_url (urljoin_da (hrefStrip (a.2.getD ""))))
      else none
    else none)

/-- Third pass: absolute-URL regex captures over the raw markup, prefixed
with the site base and canonicalized. -/
def pass3cands (p : SeasonPage) : List String :=
  p.rawAbs.map (fun g =>
    canonical_tournament_url ("https://www.dartsatlas.com" ++ g))

/-- Fourth pass: href-attribute regex captures over the raw markup, joined
and canonicalized. -/
def pass4cands (p : SeasonPage) : List String :=
  p.rawHref.map (fun u => canonical_tournament_url (urljoin_da u))

/-- All canonicalized candidates one page contributes, in the order the four
passes visit them. -/
def pageCands (p : SeasonPage) : List String :=
  pass1cands p ++ pass2cands p ++ pass3cands p ++ pass4cands p

/-- One dedup step: append the candidate to the output and record it as seen
unless it was seen before. -/
def addCand (acc : List String × List String) (c : String) :
    List String × List String :=
  if c ∈ acc.1 then acc else (c :: acc.1, acc.2 ++ [c])

/-- The pagination loop of extract_event_links_for_season: stop on a fetch
failure, on a page contributing nothing new, or after the tenth page. -/
def crawlGo : List (Option SeasonPage) → Nat → List String → List String →
    List String
  | [], _, _, out => out
  | none :: _, _, _, out => out
  | some p :: rest, budget, seen, out =>
    let acc := (pageCands p).foldl addCand (seen, out)
    if acc.2.length = out.length then acc.2
    else if budget ≤ 1 then acc.2
    else crawlGo rest (budget - 1) acc.1 acc.2

/-- The function extract_event_links_for_season of the source, over the
sequence of page fetch results (none models a failed fetch). -/
def extract_event_links_for_season (pages : List (Option SeasonPage)) :
    List String :=
  crawlGo pages 10 [] []

/-- The stream of canonicalized candidates of the pages the pagination loop
actually processes (instrumentation of crawlGo with identical control flow). -/
def crawlTrace : List (Option SeasonPage) → Nat → List String → List String →
    List String
  | [], _, _, _ => []
  | none :: _, _, _, _ => []
  | some p :: rest, budget, seen, out =>
    let acc := (pageCands p).foldl addCand (seen, out)
    pageCands p ++
      (if acc.2.length = out.length then []
       else if budget ≤ 1 then []
       else crawlTrace rest (budget - 1) acc.1 acc.2)

/-- First-seen deduplication relative to an already-seen set. -/
def dedupFirstAux (seen : List String) : List String → List String
  | [] => []
  | c :: cs =>
    if c ∈ seen then dedupFirstAux seen cs
    else c :: dedupFirstAux (c :: seen) cs

/-- Keep the first occurrence of every element, in first-seen order: the
spec's description of the crawler's output. -/
def dedupFirst (l : List String) : List String :=
  dedupFirstAux [] l

/-- The seen-set after folding a candidate list through the dedup step. -/
def newSeen (seen : List String) : List String → List String
  | [] => seen
  | c :: cs => newSeen (if c ∈ seen then seen else c :: seen) cs

/-- C1: the tier and the four points values are a pure function of the entrant
count: e ≤ 8 gives Bronze with points (8,4,2,0), 9 ≤ e ≤ 16 gives Silver with
points (16,8,4,2), e ≥ 17 gives Gold with points (32,16,8,4); in particular
tier(8)=Bronze, tier(9)=Silver, tier(16)=Silver, tier(17)=Gold, and 12
entrants give Silver with points (16,8,4,2). -/
theorem tier_points_pure_function (e : Nat) :
    (e ≤ 8 → determine_tier e = "Bronze" ∧
      POINTS (determine_tier e) = some ⟨8, 4, 2, 0⟩) ∧
    (9 ≤ e → e ≤ 16 → determine_tier e = "Silver" ∧
      POINTS (determine_tier e) = some ⟨16, 8, 4, 2⟩) ∧
    (17 ≤ e → determine_tier e = "Gold" ∧
      POINTS (determine_tier e) = some ⟨32, 16, 8, 4⟩) ∧
    determine_tier 8 = "Bronze" ∧ determine_tier 9 = "Silver" ∧
    determine_tier 16 = "Silver" ∧ determine_tier 17 = "Gold" ∧
    (determine_tier 12 = "Silver" ∧
      POINTS (determine_tier 12) = some ⟨16, 8, 4, 2⟩) := by
  refine ⟨fun h => ?_, fun h9 h16 => ?_, fun h17 => ?_, by decide, by decide,
    by decide, by decide, by decide⟩
  · simp [determine_tier, h, POINTS]
  · have h8 : ¬ e ≤ 8 := by omega
    simp [determine_tier, h8, h16, POINTS]
  · have h8 : ¬ e ≤ 8 := by omega
    have h16 : ¬ e ≤ 16 := by omega
    simp [determine_tier, h8, h16, POINTS]

/-- Witness for C1: instantiated at 12 entrants, the Silver case. -/
theorem tier_points_pure_function_witness :
    determine_tier 12 = "Silver" ∧
      POINTS (determine_tier 12) = some ⟨16, 8, 4, 2⟩ :=
  (tier_points_pure_function 12).2.1 (by decide) (by decide)

/-- C10: the bracket-based entrant estimate is always 2, 4 or 8, so a
tournament whose roster count is 0 (entrants estimated from the bracket) is
always classified Bronze with points (8,4,2,0). -/
theorem bracket_estimate_always_bronze (semis quarters : List String) :
    (estimate_entrants_from_bracket semis quarters = 2 ∨
     estimate_entrants_from_bracket semis quarters = 4 ∨
     estimate_entrants_from_bracket semis quarters = 8) ∧
    determine_tier (resolved_entrants 0 semis quarters) = "Bronze" ∧
    POINTS (determine_tier (resolved_entrants 0 semis quarters)) =
      some ⟨8, 4, 2, 0⟩ := by
  unfold resolved_entrants estimate_entrants_from_bracket determine_tier POINTS
  split <;> split <;> simp

/-- C7 counterexample: name normalization is not idempotent.  On the input
Final Final, one pass yields Final (the label pattern consumes the
separating space, so the second label survives), and a second pass yields
the empty string. -/
theorem clean_person_name_not_idempotent_cex :
    clean_person_name (clean_person_name "Final Final") ≠
      clean_person_name "Final Final" := by decide

/-- C7 amended: normalization is idempotent at the fixed points of
clean_person_name: when one pass leaves a string unchanged, a second pass
does too; unrestricted idempotence fails, as the counterexample shows. -/
theorem clean_person_name_idempotent_at_fixed_points (x : String)
    (h : clean_person_name x = x) :
    clean_person_name (clean_person_name x) = clean_person_name x := by
  rw [h]
  exact h

/-- Witness for the amended C7, at a string the cleaner leaves unchanged. -/
theorem clean_person_name_idempotent_at_fixed_points_witness :
    clean_person_name "John Smith" = "John Smith" ∧
      clean_person_name (clean_person_name "John Smith") =
        clean_person_name "John Smith" :=
  ⟨by decide, clean_person_name_idempotent_at_fixed_points "John Smith" (by decide)⟩

/-- C5 counterexample: on the document whose flattened text is the Final
section text Alice avg 3.5 3 1 Bob avg 2.1 with no Semi-Final or
Quarter-Final text, the parser does not return winner Alice, runner-up Bob
and empty semi and quarter sequences. -/
theorem final_scenario_cex :
    ¬ (parse_bracket_text "Final Alice avg 3.5 3 1 Bob avg 2.1" =
        some ("Alice", "Bob", [], [])) := by decide

/-- C5 amended: on that document the parser recovers no Final pair at all
(the decimal averages between the avg tokens and the scores defeat both
pairing patterns) and raises its no-Final error, modeled as none. -/
theorem final_scenario_raises :
    parse_bracket_text "Final Alice avg 3.5 3 1 Bob avg 2.1" = none := by decide

/-- C6 counterexample: Glen Durrant satisfies every acceptance condition the
claim lists (valid length, a letter, an interior space, not a number or
punctuation run, and no stop word as a whole word), yet the filter rejects
it, because the stop-token test is substring containment and the single
letter l occurs inside Glen. -/
theorem is_name_candidate_whole_word_cex :
    spec_name_plausible "Glen Durrant" = true ∧
    containsStopWholeWord "Glen Durrant" = false ∧
    is_name_candidate "Glen Durrant" = false := by decide

/-- C6 amended: the filter rejects any text whose cleaned, lowercased form
contains one of the source's stop tokens (the claim's fifteen words plus
leg) as a substring anywhere, not only as a whole word; in particular a stop
word inside a longer word also causes rejection. -/
theorem is_name_candidate_rejects_stop_substring (t : String)
    (h : anyBadTok ((nameCore t).map Char.toLower) = true) :
    is_name_candidate t = false := by
  unfold is_name_candidate
  split
  · rfl
  · split
    · rfl
    · split
      · rfl
      · split
        · rfl
        · simp [h]

/-- Witness for the amended C6: John Walker contains the stop tokens w and l
inside longer words and is rejected. -/
theorem is_name_candidate_rejects_stop_substring_witness :
    anyBadTok ((nameCore "John Walker").map Char.toLower) = true ∧
      is_name_candidate "John Walker" = false :=
  ⟨by decide, is_name_candidate_rejects_stop_substring "John Walker" (by decide)⟩

/-- C2: whenever the bracket parser returns a result, the reported winner is
the side of the recovered Final pair with the strictly higher score and the
runner-up is the other side. -/
theorem parser_winner_is_higher_side (t w ru : String) (ss qs : List String)
    (h : parse_bracket_text t = some (w, ru, ss, qs)) :
    ∃ l r s1 s2 rest,
      extract_pairs ["Final"] 1 (collapseWS t.data) = (l, r, s1, s2) :: rest ∧
      (s2 < s1 → w = l ∧ ru = r) ∧ (s1 < s2 → w = r ∧ ru = l) := by
  simp only [parse_bracket_text] at h
  cases hf : extract_pairs ["Final"] 1 (collapseWS t.data) with
  | nil => rw [hf] at h; cases h
  | cons p rest =>
    rw [hf] at h
    obtain ⟨l, r, s1, s2⟩ := p
    simp only [Option.some.injEq, Prod.mk.injEq] at h
    obtain ⟨hw, hru, -, -⟩ := h
    refine ⟨l, r, s1, s2, rest, rfl, fun hlt => ?_, fun hgt => ?_⟩
    · have hgt' : s1 > s2 := hlt
      simp [final_outcome, hgt'] at hw hru
      exact ⟨hw.symm, hru.symm⟩
    · have hngt : ¬ s1 > s2 := by omega
      simp [final_outcome, hngt] at hw hru
      exact ⟨hw.symm, hru.symm⟩

/-- Witness for C2 at a concrete Final document. -/
theorem parser_winner_is_higher_side_witness :
    ∃ l r s1 s2 rest,
      extract_pairs ["Final"] 1 (collapseWS ("Final A avg 3 1 B avg").data) =
        (l, r, s1, s2) :: rest ∧
      (s2 < s1 → "A" = l ∧ "B" = r) ∧ (s1 < s2 → "A" = r ∧ "B" = l) :=
  parser_winner_is_higher_side "Final A avg 3 1 B avg" "A" "B" ["B"] ["B"]
    (by decide)

/-- C3 counterexample: on a document whose Semi-Final pair is C with score 2
against D with score 0, the parser's semi-finalist record is D, the losing
side, while the advancing (winning) player of that pair is C. -/
theorem semis_keep_loser_cex :
    parse_bracket_text "Final A avg 3 1 B avg Semi-Final C avg 2 0 D avg" =
      some ("A", "B", ["D"], ["B", "D"]) ∧
    extract_pairs ["Semi-Final", "Semifinal", "Semi final"] 2
      (collapseWS ("Final A avg 3 1 B avg Semi-Final C avg 2 0 D avg").data) =
      [("C", "D", 2, 0)] ∧
    spec_advancing ("C", "D", 2, 0) = "C" ∧
    retained_of_pair ("C", "D", 2, 0) = "D" := by decide

/-- C3 amended: for every strictly-scored Semi-Final or Quarter-Final pair,
the record retains the losing side, the one with the strictly lower score;
the advancing player is the other side and, when the two names differ, is
never the retained name. -/
theorem retained_is_losing_side (a b : String) (x y : Nat) (hxy : x ≠ y) :
    (x < y → retained_of_pair (a, b, x, y) = a ∧
      spec_advancing (a, b, x, y) = b) ∧
    (y < x → retained_of_pair (a, b, x, y) = b ∧
      spec_advancing (a, b, x, y) = a) ∧
    (a ≠ b → retained_of_pair (a, b, x, y) ≠ spec_advancing (a, b, x, y)) := by
  refine ⟨fun hlt => ?_, fun hgt => ?_, fun hab => ?_⟩
  · have h1 : ¬ x > y := by omega
    simp [retained_of_pair, spec_advancing, hlt, h1]
  · have h1 : ¬ x < y := by omega
    simp [retained_of_pair, spec_advancing, hgt, h1]
  · rcases Nat.lt_or_ge x y with hlt | hge
    · have h1 : ¬ x > y := by omega
      simp [retained_of_pair, spec_advancing, hlt, h1]
      exact hab
    · have hgt : y < x := by omega
      have h1 : ¬ x < y := by omega
      simp [retained_of_pair, spec_advancing, hgt, h1]
      exact fun hba => hab hba.symm

/-- Witness for the amended C3 at the pair C 2, D 0. -/
theorem retained_is_losing_side_witness :
    ((2 : Nat) < 0 → retained_of_pair ("C", "D", 2, 0) = "C" ∧
      spec_advancing ("C", "D", 2, 0) = "D") ∧
    ((0 : Nat) < 2 → retained_of_pair ("C", "D", 2, 0) = "D" ∧
      spec_advancing ("C", "D", 2, 0) = "C") ∧
    (("C" : String) ≠ "D" →
      retained_of_pair ("C", "D", 2, 0) ≠ spec_advancing ("C", "D", 2, 0)) :=
  retained_is_losing_side "C" "D" 2 0 (by decide)

/-- C4 counterexample: an equal-score pair is not dropped: on a document
whose only Final pair is A 3 against B 3, the pair is retained by
extract_pairs and determines the whole result, with the right-hand side B
reported as winner. -/
theorem equal_scores_pair_decides_cex :
    extract_pairs ["Final"] 1 (collapseWS ("Final A avg 3 3 B avg").data) =
      [("A", "B", 3, 3)] ∧
    parse_bracket_text "Final A avg 3 3 B avg" =
      some ("B", "A", ["B"], ["B"]) := by decide

/-- C4 amended: an equal-score pair is retained, not dropped, and no error is
raised: when the first recovered Final pair has equal scores the parser still
returns a result, reporting the right-hand name as winner and the left-hand
name as runner-up; an equal-score Semi or Quarter pair likewise retains its
right-hand name. -/
theorem equal_scores_pair_kept (t l r : String) (x : Nat)
    (h : (extract_pairs ["Final"] 1 (collapseWS t.data)).head? =
      some (l, r, x, x)) :
    (∃ ss qs, parse_bracket_text t = some (r, l, ss, qs)) ∧
    retained_of_pair (l, r, x, x) = r := by
  constructor
  · simp only [parse_bracket_text]
    cases hf : extract_pairs ["Final"] 1 (collapseWS t.data) with
    | nil => rw [hf] at h; cases h
    | cons p rest =>
      rw [hf] at h
      simp only [List.head?] at h
      obtain rfl : p = (l, r, x, x) := by injection h
      exact ⟨(extract_pairs ["Semi-Final", "Semifinal", "Semi final"] 2
          (collapseWS t.data)).map retained_of_pair,
        (extract_pairs ["Quarter-Final", "Quarterfinal", "Quarter final"] 4
          (collapseWS t.data)).map retained_of_pair,
        by simp [final_outcome]⟩
  · simp [retained_of_pair]

/-- Witness for the amended C4 at the equal-score document. -/
theorem equal_scores_pair_kept_witness :
    (∃ ss qs, parse_bracket_text "Final A avg 3 3 B avg" =
      some ("B", "A", ss, qs)) ∧
    retained_of_pair ("A", "B", 3, 3) = "B" :=
  equal_scores_pair_kept "Final A avg 3 3 B avg" "A" "B" 3 (by decide)

/-- Every date the datetime.date model returns passes calendar validation. -/
theorem mkDate_some_valid (a b c y m d : Int)
    (h : mkDate a b c = some (y, m, d)) : isValidDate y m d = true := by
  unfold mkDate at h
  split at h
  · simp only [Option.some.injEq, Prod.mk.injEq] at h
    obtain ⟨rfl, rfl, rfl⟩ := h
    assumption
  · cases h

/-- Every date the widget-layout helper returns passes validation. -/
theorem try_build_some_valid (p q r : String) (y m d : Int)
    (h : try_build p q r = some (y, m, d)) : isValidDate y m d = true := by
  unfold try_build at h
  split at h
  · exact mkDate_some_valid _ _ _ _ _ _ h
  · cases h

/-- Every date the widget strategy returns passes validation. -/
theorem widget_date_some_valid (parts : List String) (y m d : Int)
    (h : widget_date parts = some (y, m, d)) : isValidDate y m d = true := by
  unfold widget_date at h
  split at h
  · split at h
    · rename_i c heq
      obtain rfl : c = (y, m, d) := Option.some.inj h
      exact try_build_some_valid _ _ _ _ _ _ heq
    · split at h
      · rename_i c heq
        obtain rfl : c = (y, m, d) := Option.some.inj h
        exact try_build_some_valid _ _ _ _ _ _ heq
      · exact try_build_some_valid _ _ _ _ _ _ h
  · cases h

/-- Every date built from a name-month pattern's groups passes validation. -/
theorem named_groups_date_some_valid (o : Option (String × String × String))
    (y m d : Int) (h : named_groups_date o = some (y, m, d)) :
    isValidDate y m d = true := by
  unfold named_groups_date at h
  split at h
  · cases h
  · split at h
    · cases h
    · split at h
      · exact mkDate_some_valid _ _ _ _ _ _ h
      · cases h

/-- Every date built from the ISO-like pattern's groups passes validation. -/
theorem iso_groups_date_some_valid (o : Option (String × String × String))
    (y m d : Int) (h : iso_groups_date o = some (y, m, d)) :
    isValidDate y m d = true := by
  unfold iso_groups_date at h
  split at h
  · cases h
  · split at h
    · exact mkDate_some_valid _ _ _ _ _ _ h
    · cases h

/-- Every date the text-pattern strategy returns passes validation, whatever
the four matchers return. -/
theorem text_date_some_valid
    (m1 m2 m3 miso : String → Option (String × String × String))
    (text : String) (y m d : Int)
    (h : text_date m1 m2 m3 miso text = some (y, m, d)) :
    isValidDate y m d = true := by
  unfold text_date at h
  split at h
  · rename_i c heq
    obtain rfl : c = (y, m, d) := Option.some.inj h
    exact named_groups_date_some_valid _ _ _ _ heq
  · split at h
    · rename_i c heq
      obtain rfl : c = (y, m, d) := Option.some.inj h
      exact named_groups_date_some_valid _ _ _ _ heq
    · split at h
      · rename_i c heq
        obtain rfl : c = (y, m, d) := Option.some.inj h
        exact named_groups_date_some_valid _ _ _ _ heq
      · exact iso_groups_date_some_valid _ _ _ _ h

/-- C8: date resolution is a total function returning none (absence) or a
date, and every date it returns passes calendar validation, for every
document and every behavior of the four text-pattern matchers; no returned
triple has a month or day outside the calendar. -/
theorem parse_tournament_date_valid
    (m1 m2 m3 miso : String → Option (String × String × String))
    (doc : DateDoc) (y m d : Int)
    (h : parse_tournament_date m1 m2 m3 miso doc = some (y, m, d)) :
    isValidDate y m d = true := by
  unfold parse_tournament_date at h
  split at h
  · rename_i c heq
    obtain rfl : c = (y, m, d) := Option.some.inj h
    split at heq
    · exact widget_date_some_valid _ _ _ _ heq
    · cases heq
  · exact text_date_some_valid _ _ _ _ _ _ _ _ h

/-- Witness for C8: the widget tokens 2025, Dec, 07 resolve to the valid
date 2025-12-07. -/
theorem parse_tournament_date_valid_witness :
    parse_tournament_date (fun _ => none) (fun _ => none) (fun _ => none)
        (fun _ => none) ⟨some ["2025", "Dec", "07"], ""⟩ =
      some (2025, 12, 7) ∧
    isValidDate 2025 12 7 = true :=
  ⟨by decide,
    parse_tournament_date_valid (fun _ => none) (fun _ => none) (fun _ => none)
      (fun _ => none) ⟨some ["2025", "Dec", "07"], ""⟩ 2025 12 7 (by decide)⟩

/-- Folding a candidate list through the dedup step appends exactly the
first-seen new elements and extends the seen set accordingly. -/
theorem foldl_addCand_eq (cs : List String) :
    ∀ seen out, cs.foldl addCand (seen, out) =
      (newSeen seen cs, out ++ dedupFirstAux seen cs) := by
  induction cs with
  | nil => intro seen out; simp [newSeen, dedupFirstAux]
  | cons c cs ih =>
    intro seen out
    by_cases h : c ∈ seen
    · simp [List.foldl, addCand, h, newSeen, dedupFirstAux, ih]
    · simp [List.foldl, addCand, h, newSeen, dedupFirstAux, ih]

/-- First-seen dedup distributes over append through the updated seen set. -/
theorem dedupFirstAux_append (xs : List String) :
    ∀ seen ys, dedupFirstAux seen (xs ++ ys) =
      dedupFirstAux seen xs ++ dedupFirstAux (newSeen seen xs) ys := by
  induction xs with
  | nil => intro seen ys; simp [dedupFirstAux, newSeen]
  | cons c cs ih =>
    intro seen ys
    by_cases h : c ∈ seen <;> simp [dedupFirstAux, newSeen, h, ih]

/-- Elements of the dedup output were not previously seen and come from the
input list. -/
theorem mem_dedupFirstAux (x : String) (l : List String) :
    ∀ seen, x ∈ dedupFirstAux seen l → x ∉ seen ∧ x ∈ l := by
  induction l with
  | nil => intro seen h; simp [dedupFirstAux] at h
  | cons c cs ih =>
    intro seen h
    unfold dedupFirstAux at h
    by_cases hc : c ∈ seen
    · rw [if_pos hc] at h
      obtain ⟨h1, h2⟩ := ih _ h
      exact ⟨h1, List.mem_cons_of_mem _ h2⟩
    · rw [if_neg hc] at h
      rcases List.mem_cons.mp h with rfl | h
      · exact ⟨hc, List.mem_cons_self _ _⟩
      · obtain ⟨h1, h2⟩ := ih _ h
        exact ⟨fun hs => h1 (List.mem_cons_of_mem _ hs),
          List.mem_cons_of_mem _ h2⟩

/-- The first-seen dedup output has no duplicates. -/
theorem nodup_dedupFirstAux (l : List String) :
    ∀ seen, (dedupFirstAux seen l).Nodup := by
  induction l with
  | nil => intro seen; simp [dedupFirstAux]
  | cons c cs ih =>
    intro seen
    by_cases h : c ∈ seen
    · simp only [dedupFirstAux, if_pos h]
      exact ih _
    · simp only [dedupFirstAux, if_neg h, List.nodup_cons]
      exact ⟨fun hmem =>
        (mem_dedupFirstAux _ _ _ hmem).1 (List.mem_cons_self _ _), ih _⟩

/-- The pagination loop returns its accumulator extended by the first-seen
dedup of the trace of the pages it processes. -/
theorem crawlGo_eq_dedup (pages : List (Option SeasonPage)) :
    ∀ budget seen out, crawlGo pages budget seen out =
      out ++ dedupFirstAux seen (crawlTrace pages budget seen out) := by
  induction pages with
  | nil => intro b s o; simp [crawlGo, crawlTrace, dedupFirstAux]
  | cons op rest ih =>
    intro b s o
    cases op with
    | none => simp [crawlGo, crawlTrace, dedupFirstAux]
    | some p =>
      simp only [crawlGo, crawlTrace]
      rw [foldl_addCand_eq]
      by_cases h1 :
          (o ++ dedupFirstAux s (pageCands p)).length = o.length
      · simp [h1, dedupFirstAux_append]
      · by_cases h2 : b ≤ 1
        · simp [h1, h2, dedupFirstAux_append]
        · have hD : ¬ dedupFirstAux s (pageCands p) = [] :=
            fun hnil => h1 (by simp [hnil])
          simp [h1, h2, ih, dedupFirstAux_append, hD]

/-- Every trace element is a candidate of one of the fetched pages. -/
theorem mem_crawlTrace (u : String) (pages : List (Option SeasonPage)) :
    ∀ budget seen out, u ∈ crawlTrace pages budget seen out →
      ∃ p, some p ∈ pages ∧ u ∈ pageCands p := by
  induction pages with
  | nil => intro b s o h; simp [crawlTrace] at h
  | cons op rest ih =>
    intro b s o h
    cases op with
    | none => simp [crawlTrace] at h
    | some p =>
      simp only [crawlTrace] at h
      rcases List.mem_append.mp h with h | h
      · exact ⟨p, List.mem_cons_self _ _, h⟩
      · split at h
        · cases h
        · split at h
          · cases h
          · obtain ⟨p', hp', hu⟩ := ih _ _ _ h
            exact ⟨p', List.mem_cons_of_mem _ hp', hu⟩

/-- Every candidate a page contributes is the canonical form of some
discovered link text. -/
theorem pageCands_canonical (p : SeasonPage) (u : String)
    (h : u ∈ pageCands p) : ∃ raw, u = canonical_tournament_url raw := by
  simp only [pageCands, List.mem_append] at h
  rcases h with ((h | h) | h) | h
  · simp only [pass1cands, List.mem_filterMap] at h
    obtain ⟨a, -, ha⟩ := h
    split at ha
    · split at ha
      · split at ha
        · exact ⟨_, (Option.some.inj ha).symm⟩
        · cases ha
      · cases ha
    · cases ha
  · simp only [pass2cands, List.mem_filterMap] at h
    obtain ⟨a, -, ha⟩ := h
    split at ha
    · split at ha
      · exact ⟨_, (Option.some.inj ha).symm⟩
      · cases ha
    · cases ha
  · simp only [pass3cands, List.mem_map] at h
    obtain ⟨g, -, hg⟩ := h
    exact ⟨_, hg.symm⟩
  · simp only [pass4cands, List.mem_map] at h
    obtain ⟨g, -, hg⟩ := h
    exact ⟨_, hg.symm⟩

/-- C9: the crawler's URL sequence has no duplicates and equals the
first-seen deduplication of the canonicalized candidate stream of the pages
it processes, so any number of differently formatted links resolving to the
same canonical tournament root yield exactly one entry, entries appear in
first-seen order, and every entry is the canonical form of some discovered
link. -/
theorem season_crawl_dedup_canonical (pages : List (Option SeasonPage)) :
    extract_event_links_for_season pages =
      dedupFirst (crawlTrace pages 10 [] []) ∧
    (extract_event_links_for_season pages).Nodup ∧
    ∀ u ∈ extract_event_links_for_season pages,
      ∃ raw, u = canonical_tournament_url raw := by
  have he : extract_event_links_for_season pages =
      dedupFirstAux [] (crawlTrace pages 10 [] []) := by
    simpa [extract_event_links_for_season] using crawlGo_eq_dedup pages 10 [] []
  refine ⟨he, ?_, ?_⟩
  · rw [he]
    exact nodup_dedupFirstAux _ _
  · intro u hu
    rw [he] at hu
    obtain ⟨p, -, hp⟩ :=
      mem_crawlTrace u pages 10 [] [] (mem_dedupFirstAux u _ _ hu).2
    exact pageCands_canonical p u hp

/-- Witness for C9 on a concrete two-page season whose first page offers the
same tournament under two link formats. -/
theorem season_crawl_dedup_canonical_witness :
    extract_event_links_for_season
        [some ⟨[("Full Details »", some "/tournaments/AAA/results"),
          ("more", some "https://www.dartsatlas.com/tournaments/AAA")], [], []⟩,
         some ⟨[("Full Details »", some "/tournaments/BBB")], [], []⟩] =
      dedupFirst (crawlTrace
        [some ⟨[("Full Details »", some "/tournaments/AAA/results"),
          ("more", some "https://www.dartsatlas.com/tournaments/AAA")], [], []⟩,
         some ⟨[("Full Details »", some "/tournaments/BBB")], [], []⟩]
        10 [] []) ∧
    (extract_event_links_for_season
        [some ⟨[("Full Details »", some "/tournaments/AAA/results"),
          ("more", some "https://www.dartsatlas.com/tournaments/AAA")], [], []⟩,
         some ⟨[("Full Details »", some "/tournaments/BBB")], [], []⟩]).Nodup ∧
    ∀ u ∈ extract_event_links_for_season
        [some ⟨[("Full Details »", some "/tournaments/AAA/results"),
          ("more", some "https://www.dartsatlas.com/tournaments/AAA")], [], []⟩,
         some ⟨[("Full Details »", some "/tournaments/BBB")], [], []⟩],
      ∃ raw, u = canonical_tournament_url raw :=
  season_crawl_dedup_canonical
    [some ⟨[("Full Details »", some "/tournaments/AAA/results"),
      ("more", some "https://www.dartsatlas.com/tournaments/AAA")], [], []⟩,
     some ⟨[("Full Details »", some "/tournaments/BBB")], [], []⟩]

end AdcDaily
